import Mathlib

/-!
Verification development for the tari-dan typescript bindings repository.

The repository ships machine-generated declaration files
(src/bindings/src/types/Command.ts, .../ProofsGenerateRequest.ts,
src/bindings/dist/types/wallet-daemon-client/TransactionSubmitRequest.d.ts,
and two further generated declaration files).  The specification describes
the schema-export pipeline (Schema Registry, Exporter, Consistency Checker)
that keeps such declarations in sync with a canonical model.  The pipeline
itself is not part of the repository, so it is modelled here from the
specification; the shipped declaration files are embedded verbatim as data.
-/

namespace TariBindings

/-- Modelled from the spec (section 3, TypeReference): a resolved or
unresolved pointer to a TypeNode by name, possibly parameterized by other
type names (generics), possibly wrapped in ordered-sequence-of,
optional-of or nullable-of modifiers.  `prim` denotes a target-language
primitive (string, number, boolean), which points at no TypeNode. -/
inductive TypeRef where
  | prim (p : String)
  | named (n : String)
  | app (n : String) (args : List String)
  | seq (t : TypeRef)
  | opt (t : TypeRef)
  | nullable (t : TypeRef)
deriving Repr, DecidableEq

/-- All TypeNode names a reference points at (a primitive points at none). -/
def refNames : TypeRef → List String
  | .prim _ => []
  | .named n => [n]
  | .app n args => n :: args
  | .seq t => refNames t
  | .opt t => refNames t
  | .nullable t => refNames t

/-- The head target name of a reference: the TypeNode the reference
resolves to, looking through sequence/optional/nullable modifiers.
A primitive has no target TypeNode. -/
def targetName : TypeRef → Option String
  | .prim _ => none
  | .named n => some n
  | .app n _ => some n
  | .seq t => targetName t
  | .opt t => targetName t
  | .nullable t => targetName t

/-- Names referenced in an inline (unindirected) position: a sequence,
optional or nullable wrapper is an indirection point, a bare named
reference is not. -/
def inlineNames : TypeRef → List String
  | .prim _ => []
  | .named n => [n]
  | .app n _ => [n]
  | .seq _ => []
  | .opt _ => []
  | .nullable _ => []

/-- Modelled from the spec (section 3, FieldSpec): name, type reference,
optionality flag, nullability flag. -/
structure FieldSpec where
  name : String
  ty : TypeRef
  optional : Bool
  nullable : Bool
deriving Repr, DecidableEq

/-- Modelled from the spec (section 3, VariantSpec): tag name and payload
type reference, which may be unit (no payload). -/
structure VariantSpec where
  tag : String
  payload : Option TypeRef
deriving Repr, DecidableEq

/-- Kind of a canonical type definition (spec section 3, TypeNode). -/
inductive TypeKind where
  | structK
  | unionK
  | aliasK
  | primK
deriving Repr, DecidableEq

/-- Modelled from the spec (section 3, TypeNode): stable name, kind,
ordered fields (for structs), ordered variants (for tagged unions),
ordered generic parameters. -/
structure TypeNode where
  name : String
  kind : TypeKind
  fields : List FieldSpec
  variants : List VariantSpec
  generics : List String
deriving Repr, DecidableEq

/-- Modelled from the spec (section 4.1): the Schema Registry holds the
authoritative ordered set of TypeNodes of one snapshot; `all_nodes`
iteration order is the declaration order of `nodes`. -/
structure Registry where
  nodes : List TypeNode
deriving Repr, DecidableEq

def names (r : Registry) : List String :=
  r.nodes.map TypeNode.name

def lookup (r : Registry) (nm : String) : Option TypeNode :=
  r.nodes.find? (fun nd => nd.name == nm)

/-- Reference names of a variant payload (none for a unit variant). -/
def payloadRefNames (v : VariantSpec) : List String :=
  match v.payload with
  | some t => refNames t
  | none => []

/-- All TypeNode names directly referenced by a node's fields and
variant payloads. -/
def directRefNames (n : TypeNode) : List String :=
  n.fields.flatMap (fun f => refNames f.ty) ++ n.variants.flatMap payloadRefNames

/-- A registry snapshot is sealed consistently when every direct reference
of every node targets a name present in the snapshot (spec section 3,
no-dangling-references invariant). -/
def sealedB (r : Registry) : Bool :=
  r.nodes.all (fun x => (directRefNames x).all (fun m => (names r).contains m))

/-! Embedding of the shipped generated declaration files. -/

/-- A type expression as it appears in the generated typescript files. -/
inductive TsType where
  | named (n : String)
  | stringT
  | numberT
  | booleanT
  | uint8ArrayT
  | arrayOf (t : TsType)
  | orNull (t : TsType)
deriving Repr, DecidableEq

/-- A field of a generated interface declaration; `optionalMark` records
whether the field carries the typescript optional marker. -/
structure TsField where
  name : String
  ty : TsType
  optionalMark : Bool
deriving Repr, DecidableEq

/-- One member of a generated union declaration: either an object case
carrying a payload under its tag, or a bare string-literal case with no
payload. -/
structure TsCase where
  tag : String
  payload : Option TsType
deriving Repr, DecidableEq

/-- A generated declaration: an interface with generic parameters and
fields, or a tagged-union type alias. -/
inductive TsDecl where
  | interfaceD (name : String) (generics : List String) (fields : List TsField)
  | unionD (name : String) (cases : List TsCase)
deriving Repr, DecidableEq

/-- One import line of a generated file: imported type name and module
path. -/
structure TsImport where
  name : String
  path : String
deriving Repr, DecidableEq

/-- One generated declaration file: optional leading provenance comment,
the import lines in file order, and the declaration. -/
structure TsFile where
  headerComment : Option String
  imports : List TsImport
  decl : TsDecl
deriving Repr, DecidableEq

/-- The provenance header emitted at the top of the generated source
files. -/
def tsRsHeader : String :=
  "// This file was generated by [ts-rs](https://github.com/Aleph-Alpha/ts-rs). Do not edit this file manually."

/-- src/bindings/src/types/Command.ts. -/
def Command_ts : TsFile :=
  ⟨some tsRsHeader,
   [⟨"EvictNodeAtom", "./EvictNodeAtom"⟩,
    ⟨"ForeignProposalAtom", "./ForeignProposalAtom"⟩,
    ⟨"MintConfidentialOutputAtom", "./MintConfidentialOutputAtom"⟩,
    ⟨"TransactionAtom", "./TransactionAtom"⟩],
   .unionD "Command"
     [⟨"LocalOnly", some (.named "TransactionAtom")⟩,
      ⟨"Prepare", some (.named "TransactionAtom")⟩,
      ⟨"LocalPrepare", some (.named "TransactionAtom")⟩,
      ⟨"AllPrepare", some (.named "TransactionAtom")⟩,
      ⟨"SomePrepare", some (.named "TransactionAtom")⟩,
      ⟨"LocalAccept", some (.named "TransactionAtom")⟩,
      ⟨"AllAccept", some (.named "TransactionAtom")⟩,
      ⟨"SomeAccept", some (.named "TransactionAtom")⟩,
      ⟨"ForeignProposal", some (.named "ForeignProposalAtom")⟩,
      ⟨"MintConfidentialOutput", some (.named "MintConfidentialOutputAtom")⟩,
      ⟨"EvictNode", some (.named "EvictNodeAtom")⟩,
      ⟨"EndEpoch", none⟩]⟩

/-- src/bindings/src/types/ValidatorNode.ts (second declaration bundled in
the Command.ts source material). -/
def ValidatorNode_ts : TsFile :=
  ⟨some tsRsHeader,
   [⟨"Epoch", "./Epoch"⟩,
    ⟨"Shard", "./Shard"⟩,
    ⟨"SubstateAddress", "./SubstateAddress"⟩],
   .interfaceD "ValidatorNode" ["TAddr"]
     [⟨"address", .stringT, false⟩,
      ⟨"public_key", .stringT, false⟩,
      ⟨"shard_key", .named "SubstateAddress", false⟩,
      ⟨"epoch", .named "Epoch", false⟩,
      ⟨"committee_shard", .orNull (.named "Shard"), false⟩,
      ⟨"fee_claim_public_key", .stringT, false⟩]⟩

/-- src/bindings/src/types/wallet-daemon-client/ProofsGenerateRequest.ts. -/
def ProofsGenerateRequest_ts : TsFile :=
  ⟨some tsRsHeader,
   [⟨"Amount", "../Amount"⟩,
    ⟨"ComponentAddressOrName", "./ComponentAddressOrName"⟩,
    ⟨"ResourceAddress", "../ResourceAddress"⟩],
   .interfaceD "ProofsGenerateRequest" []
     [⟨"amount", .named "Amount", false⟩,
      ⟨"reveal_amount", .named "Amount", false⟩,
      ⟨"account", .orNull (.named "ComponentAddressOrName"), false⟩,
      ⟨"resource_address", .named "ResourceAddress", false⟩,
      ⟨"destination_public_key", .stringT, false⟩]⟩

/-- src/bindings/dist/types/wallet-daemon-client/TransactionSubmitRequest.d.ts:
the compiled dist declaration carries no provenance header comment. -/
def TransactionSubmitRequest_dts : TsFile :=
  ⟨none,
   [⟨"Epoch", "../Epoch"⟩,
    ⟨"Instruction", "../Instruction"⟩,
    ⟨"SubstateRequirement", "../SubstateRequirement"⟩,
    ⟨"UnsignedTransaction", "../UnsignedTransaction"⟩],
   .interfaceD "TransactionSubmitRequest" []
     [⟨"transaction", .orNull (.named "UnsignedTransaction"), false⟩,
      ⟨"signing_key_index", .orNull .numberT, false⟩,
      ⟨"inputs", .arrayOf (.named "SubstateRequirement"), false⟩,
      ⟨"override_inputs", .booleanT, false⟩,
      ⟨"is_dry_run", .booleanT, false⟩,
      ⟨"proof_ids", .arrayOf .numberT, false⟩,
      ⟨"fee_instructions", .arrayOf (.named "Instruction"), false⟩,
      ⟨"instructions", .arrayOf (.named "Instruction"), false⟩,
      ⟨"min_epoch", .orNull (.named "Epoch"), false⟩,
      ⟨"max_epoch", .orNull (.named "Epoch"), false⟩]⟩

/-- FinalizeResult.d.ts (second dist declaration bundled with
TransactionSubmitRequest.d.ts in the source material); no provenance
header comment. -/
def FinalizeResult_dts : TsFile :=
  ⟨none,
   [⟨"Event", "./Event"⟩,
    ⟨"FeeReceipt", "./FeeReceipt"⟩,
    ⟨"InstructionResult", "./InstructionResult"⟩,
    ⟨"LogEntry", "./LogEntry"⟩,
    ⟨"TransactionResult", "./TransactionResult"⟩],
   .interfaceD "FinalizeResult" []
     [⟨"transaction_hash", .uint8ArrayT, false⟩,
      ⟨"events", .arrayOf (.named "Event"), false⟩,
      ⟨"logs", .arrayOf (.named "LogEntry"), false⟩,
      ⟨"execution_results", .arrayOf (.named "InstructionResult"), false⟩,
      ⟨"result", .named "TransactionResult", false⟩,
      ⟨"fee_receipt", .named "FeeReceipt", false⟩]⟩

/-- src/unnamed/part_000: AccountsCreateFreeTestCoinsRequest.ts. -/
def AccountsCreateFreeTestCoinsRequest_ts : TsFile :=
  ⟨some tsRsHeader,
   [⟨"Amount", "../Amount"⟩,
    ⟨"ComponentAddressOrName", "./ComponentAddressOrName"⟩],
   .interfaceD "AccountsCreateFreeTestCoinsRequest" []
     [⟨"account", .orNull (.named "ComponentAddressOrName"), false⟩,
      ⟨"amount", .named "Amount", false⟩,
      ⟨"max_fee", .orNull (.named "Amount"), false⟩,
      ⟨"key_id", .orNull .numberT, false⟩]⟩

/-- src/unnamed/part_001: IndexedWellKnownTypes.ts. -/
def IndexedWellKnownTypes_ts : TsFile :=
  ⟨some tsRsHeader,
   [⟨"BucketId", "./BucketId"⟩,
    ⟨"ComponentAddress", "./ComponentAddress"⟩,
    ⟨"Metadata", "./Metadata"⟩,
    ⟨"NonFungibleAddress", "./NonFungibleAddress"⟩,
    ⟨"ProofId", "./ProofId"⟩,
    ⟨"PublishedTemplateAddress", "./PublishedTemplateAddress"⟩,
    ⟨"ResourceAddress", "./ResourceAddress"⟩,
    ⟨"TransactionReceiptAddress", "./TransactionReceiptAddress"⟩,
    ⟨"UnclaimedConfidentialOutputAddress", "./UnclaimedConfidentialOutputAddress"⟩,
    ⟨"VaultId", "./VaultId"⟩],
   .interfaceD "IndexedWellKnownTypes" []
     [⟨"bucket_ids", .arrayOf (.named "BucketId"), false⟩,
      ⟨"proof_ids", .arrayOf (.named "ProofId"), false⟩,
      ⟨"component_addresses", .arrayOf (.named "ComponentAddress"), false⟩,
      ⟨"resource_addresses", .arrayOf (.named "ResourceAddress"), false⟩,
      ⟨"transaction_receipt_addresses", .arrayOf (.named "TransactionReceiptAddress"), false⟩,
      ⟨"non_fungible_addresses", .arrayOf (.named "NonFungibleAddress"), false⟩,
      ⟨"vault_ids", .arrayOf (.named "VaultId"), false⟩,
      ⟨"metadata", .arrayOf (.named "Metadata"), false⟩,
      ⟨"unclaimed_confidential_output_address", .arrayOf (.named "UnclaimedConfidentialOutputAddress"), false⟩,
      ⟨"published_template_addresses", .arrayOf (.named "PublishedTemplateAddress"), false⟩]⟩

/-- All generated declaration files present in the repository. -/
def repoFiles : List TsFile :=
  [Command_ts, ValidatorNode_ts, ProofsGenerateRequest_ts,
   TransactionSubmitRequest_dts, FinalizeResult_dts,
   AccountsCreateFreeTestCoinsRequest_ts, IndexedWellKnownTypes_ts]

/-- The generated files under src/bindings/src and src/unnamed. -/
def srcFiles : List TsFile :=
  [Command_ts, ValidatorNode_ts, ProofsGenerateRequest_ts,
   AccountsCreateFreeTestCoinsRequest_ts, IndexedWellKnownTypes_ts]

/-- The compiled declaration files under src/bindings/dist. -/
def distFiles : List TsFile :=
  [TransactionSubmitRequest_dts, FinalizeResult_dts]

/-- TypeNode names referenced inside a typescript type expression
(primitives contribute none). -/
def TsType.refNamesT : TsType → List String
  | .named n => [n]
  | .stringT => []
  | .numberT => []
  | .booleanT => []
  | .uint8ArrayT => []
  | .arrayOf t => t.refNamesT
  | .orNull t => t.refNamesT

/-- Fields of a declaration (a union declaration has none). -/
def declFields : TsDecl → List TsField
  | .interfaceD _ _ fs => fs
  | .unionD _ _ => []

/-- Generic parameters of a declaration. -/
def declGenerics : TsDecl → List String
  | .interfaceD _ gs _ => gs
  | .unionD _ _ => []

/-- Name of the projected declaration. -/
def declName : TsDecl → String
  | .interfaceD nm _ _ => nm
  | .unionD nm _ => nm

/-- Union case tags of a declaration in declared order. -/
def declCaseTags : TsDecl → List String
  | .interfaceD _ _ _ => []
  | .unionD _ cs => cs.map TsCase.tag

/-- Union case payloads of a declaration in declared order. -/
def declCasePayloads : TsDecl → List (Option TsType)
  | .interfaceD _ _ _ => []
  | .unionD _ cs => cs.map TsCase.payload

/-- Field names of a declaration in declared order. -/
def declFieldNames (d : TsDecl) : List String :=
  (declFields d).map TsField.name

/-- TypeNode names a declaration depends on: named references of all field
types and case payloads, excluding the declaration's own generic
parameters. -/
def declRefNames (d : TsDecl) : List String :=
  match d with
  | .interfaceD _ gs fs =>
      (fs.flatMap (fun f => f.ty.refNamesT)).filter (fun n => !(gs.contains n))
  | .unionD _ cs =>
      cs.flatMap (fun c =>
        match c.payload with
        | some t => t.refNamesT
        | none => [])

/-- Names imported by a generated file. -/
def importedNames (f : TsFile) : List String :=
  f.imports.map TsImport.name

/-- The file imports every TypeNode name its declaration depends on. -/
def importsCoverDeps (f : TsFile) : Bool :=
  (declRefNames f.decl).all (fun n => (importedNames f).contains n)

/-- The file begins with the generator's provenance header comment. -/
def hasProvenanceHeader (f : TsFile) : Bool :=
  f.headerComment == some tsRsHeader

/-- Every field of every declaration of the given files is declared
required (no typescript optional marker). -/
def allFieldsRequired (fs : List TsFile) : Bool :=
  fs.all (fun f => (declFields f.decl).all (fun fl => !fl.optionalMark))

def TsType.isOrNull : TsType → Bool
  | .orNull _ => true
  | .named _ => false
  | .stringT => false
  | .numberT => false
  | .booleanT => false
  | .uint8ArrayT => false
  | .arrayOf _ => false

/-- Some field of some declaration encodes possible absence as a union
with null. -/
def usesNullUnion (fs : List TsFile) : Bool :=
  fs.any (fun f => (declFields f.decl).any (fun fl => fl.ty.isOrNull))

/-! The exporter, modelled from the spec (section 4.2). -/

/-- One emitted field of an ExportUnit; `emitNull` records the exporter's
uniform policy of projecting both the optionality and the nullability
modifier to a union with null in the target representation. -/
structure ExportField where
  name : String
  ty : TypeRef
  emitNull : Bool
deriving Repr, DecidableEq

/-- One emitted case of a tagged-union ExportUnit; a unit variant carries
no payload. -/
structure ExportCase where
  tag : String
  payload : Option TypeRef
deriving Repr, DecidableEq

/-- Body of an emitted declaration. -/
inductive ExportBody where
  | structBody (fields : List ExportField)
  | unionBody (cases : List ExportCase)
  | primBody
deriving Repr, DecidableEq

/-- Modelled from the spec (section 3, ExportUnit): one emitted
declaration, derived deterministically from exactly one TypeNode; tracks
the set of TypeNode names it must import. -/
structure ExportUnit where
  unitName : String
  generics : List String
  imports : Finset String
  body : ExportBody

/-- The names of the registry snapshot as a finite set. -/
def namesFinset (r : Registry) : Finset String :=
  (names r).toFinset

/-- One round of transitive dependency collection: keep the current set
and add the direct references of every member that resolves in the
snapshot. -/
def stepRefs (r : Registry) (s : Finset String) : Finset String :=
  s ∪ s.biUnion (fun nm =>
    match lookup r nm with
    | some node => (directRefNames node).toFinset
    | none => ∅)

/-- Iteration budget that guarantees the dependency collection has reached
its fixpoint on a sealed snapshot. -/
def importBound (r : Registry) : Nat :=
  (namesFinset r).card + 1

/-- Modelled from the spec (section 4.2, dependency resolution): the
transitive set of TypeNode names referenced from a node, collected by
saturating the direct-reference step. -/
def importSet (r : Registry) (n : TypeNode) : Finset String :=
  (stepRefs r)^[importBound r] (directRefNames n).toFinset

/-- Modelled from the spec (section 4.2, `export`): project one TypeNode
into one ExportUnit.  For a struct, one field per FieldSpec in order; the
optional and nullable modifiers are both projected to a union with null
(the single policy applied for all nodes).  For a tagged union, one case
per VariantSpec in declaration order with the exact tag identifier; a
unit variant is a case with no payload. -/
def exportNode (r : Registry) (n : TypeNode) : ExportUnit :=
  ⟨n.name, n.generics, importSet r n,
   match n.kind with
   | .structK => .structBody (n.fields.map (fun f => ⟨f.name, f.ty, f.optional || f.nullable⟩))
   | .unionK => .unionBody (n.variants.map (fun v => ⟨v.tag, v.payload⟩))
   | .aliasK => .primBody
   | .primK => .primBody⟩

/-- Emitted case tags of an ExportUnit in emission order. -/
def ExportUnit.caseTags (u : ExportUnit) : List String :=
  match u.body with
  | .unionBody cs => cs.map ExportCase.tag
  | _ => []

/-- Emitted case payloads of an ExportUnit in emission order. -/
def ExportUnit.casePayloads (u : ExportUnit) : List (Option TypeRef) :=
  match u.body with
  | .unionBody cs => cs.map ExportCase.payload
  | _ => []

/-- Emitted field names of an ExportUnit in emission order. -/
def ExportUnit.fieldNames (u : ExportUnit) : List String :=
  match u.body with
  | .structBody fs => fs.map ExportField.name
  | _ => []

/-- Target-representation rendering of a type reference. -/
def renderRef : TypeRef → String
  | .prim p => p
  | .named n => n
  | .app n args => n ++ "<" ++ String.intercalate ", " args ++ ">"
  | .seq t => "Array<" ++ renderRef t ++ ">"
  | .opt t => renderRef t ++ " | null"
  | .nullable t => renderRef t ++ " | null"

def renderField (f : ExportField) : String :=
  "  " ++ f.name ++ ": " ++ renderRef f.ty ++ (if f.emitNull then " | null" else "") ++ ";"

def renderCase (c : ExportCase) : String :=
  match c.payload with
  | some p => "  | " ++ c.tag ++ " of " ++ renderRef p
  | none => "  | " ++ c.tag

def renderGenerics (gs : List String) : String :=
  match gs with
  | [] => ""
  | _ => "<" ++ String.intercalate ", " gs ++ ">"

def renderBody (b : ExportBody) : List String :=
  match b with
  | .structBody fs => fs.map renderField
  | .unionBody cs => cs.map renderCase
  | .primBody => []

/-- Byte rendering of one ExportUnit: provenance header, one import line
per dependency in sorted order, declaration head, body lines. -/
def renderUnit (u : ExportUnit) : String :=
  String.intercalate "\n"
    ([tsRsHeader]
     ++ (u.imports.sort (· ≤ ·)).map (fun i => "import type " ++ i ++ ";")
     ++ ["export " ++ u.unitName ++ renderGenerics u.generics]
     ++ renderBody u.body)

/-- Modelled from the spec (sections 4.1 and 8): one run of `export` over
`all_nodes` of the snapshot, in the registry's deterministic declaration
order, producing the output set of (node name, rendered bytes) pairs. -/
def renderAll (r : Registry) : List (String × String) :=
  r.nodes.map (fun n => (n.name, renderUnit (exportNode r n)))

/-! Registry validation, resolution and the batch run, modelled from the
spec (sections 4.1, 4.2, 6 and 7). -/

/-- Error taxonomy of the pipeline (spec section 7). -/
inductive SchemaError where
  | duplicateName (n : String)
  | unresolvedReference (n : String)
  | unsupportedShape (n : String)
deriving Repr, DecidableEq

/-- First name occurring twice in a list, if any. -/
def firstDuplicate : List String → Option String
  | [] => none
  | x :: xs => if x ∈ xs then some x else firstDuplicate xs

/-- First direct reference of any node whose target name is absent from
the snapshot, if any. -/
def firstUnresolved (r : Registry) : Option String :=
  r.nodes.findSome? (fun n => (directRefNames n).find? (fun m => decide (m ∉ names r)))

/-- Modelled from the spec (sections 4.1 and 7): sealing validation of a
registry snapshot; duplicate names and dangling references are detected
eagerly, before export begins. -/
def validate (r : Registry) : Except SchemaError Unit :=
  match firstDuplicate (names r) with
  | some d => .error (.duplicateName d)
  | none =>
      match firstUnresolved r with
      | some m => .error (.unresolvedReference m)
      | none => .ok ()

/-- Modelled from the spec (section 4.1, `resolve`): resolve a
TypeReference to its target TypeNode; fails with
`UnresolvedReferenceError` exactly when the reference's target name is
absent from the snapshot (a primitive reference has no target TypeNode in
the snapshot). -/
def resolve (r : Registry) (ref : TypeRef) : Except SchemaError TypeNode :=
  match targetName ref with
  | none => .error (.unresolvedReference "")
  | some nm =>
      match lookup r nm with
      | some node => .ok node
      | none => .error (.unresolvedReference nm)

/-- Modelled from the spec (section 4.2, `UnsupportedShapeError`): a node
whose struct fields inline the node itself with no
sequence/optional/nullable indirection point would require unbounded
inline expansion and cannot be represented faithfully. -/
def unsupportedShape (n : TypeNode) : Bool :=
  n.fields.any (fun f => (inlineNames f.ty).contains n.name)

/-- Names of every node of the snapshot that fails with
`UnsupportedShapeError`. -/
def failingNodes (r : Registry) : List String :=
  (r.nodes.filter unsupportedShape).map TypeNode.name

/-- Outcome of one export batch run (spec sections 6 and 7): a fatal
structural error aborts before any output, per-node shape errors are
collected and fail the batch with no output, otherwise the complete
output set is produced. -/
inductive ExportOutcome where
  | fatal (e : SchemaError)
  | nodeFailures (failing : List String)
  | produced (outputs : List (String × String))

/-- Modelled from the spec (sections 4.2, 6 and 7): one export batch run.
Structural validation runs first and aborts fatally; then per-node shape
errors are collected across the whole batch; output is written only when
every node succeeded. -/
def runExport (r : Registry) : ExportOutcome :=
  match validate r with
  | .error e => .fatal e
  | .ok _ =>
      if failingNodes r = [] then .produced (renderAll r)
      else .nodeFailures (failingNodes r)

/-- The declarations a run leaves behind: only a fully produced batch
writes anything. -/
def writtenOutputs : ExportOutcome → List (String × String)
  | .produced outs => outs
  | .fatal _ => []
  | .nodeFailures _ => []

/-! The consistency checker, modelled from the spec (section 4.3). -/

/-- Classification of one schema change (spec section 4.3); the
`compatible` flag of a field or variant addition records whether the
addition is compatible (false means breaking). -/
inductive SchemaChange where
  | addedType (name : String)
  | removedTypeBreaking (name : String)
  | fieldAdded (typeName fieldName : String) (compatible : Bool)
  | fieldRemovedBreaking (typeName fieldName : String)
  | fieldTypeChangedBreaking (typeName fieldName : String)
  | variantAdded (typeName tag : String) (compatible : Bool)
  | variantRemovedBreaking (typeName tag : String)
deriving Repr, DecidableEq

/-- Modelled from the spec (section 4.3): field-level changes between the
old and new version of one TypeNode.  Removing a field or changing its
type or modifiers is breaking; adding a field is compatible exactly when
the new field is optional. -/
def diffFields (tn : String) (olds news : List FieldSpec) : List SchemaChange :=
  (olds.filterMap (fun f =>
    match news.find? (fun g => g.name == f.name) with
    | none => some (.fieldRemovedBreaking tn f.name)
    | some g =>
        if g.ty == f.ty && g.optional == f.optional && g.nullable == f.nullable then none
        else some (.fieldTypeChangedBreaking tn f.name)))
  ++ (news.filterMap (fun g =>
    if (olds.find? (fun f => f.name == g.name)).isSome then none
    else some (.fieldAdded tn g.name g.optional)))

/-- Modelled from the spec (section 4.3): variant-level changes between
the old and new version of one TypeNode; `openUnion` is the explicit
per-type exhaustiveness policy deciding whether a variant addition is
compatible. -/
def diffVariants (openUnion : Bool) (tn : String) (olds news : List VariantSpec) : List SchemaChange :=
  (olds.filterMap (fun v =>
    if (news.find? (fun w => w.tag == v.tag)).isSome then none
    else some (.variantRemovedBreaking tn v.tag)))
  ++ (news.filterMap (fun w =>
    if (olds.find? (fun v => v.tag == w.tag)).isSome then none
    else some (.variantAdded tn w.tag openUnion)))

/-- Changes between the old and new version of one TypeNode. -/
def diffNode (pol : String → Bool) (o n : TypeNode) : List SchemaChange :=
  diffFields o.name o.fields n.fields ++ diffVariants (pol o.name) o.name o.variants n.variants

/-- Modelled from the spec (section 4.3, `diff`): the ordered sequence of
schema changes between two registry snapshots; `pol` is the explicit
open-union policy per TypeNode name.  The checker is advisory: it reads
both registries and mutates neither. -/
def diff (pol : String → Bool) (old new : Registry) : List SchemaChange :=
  (old.nodes.filterMap (fun o =>
    if (lookup new o.name).isSome then none
    else some (.removedTypeBreaking o.name)))
  ++ (old.nodes.flatMap (fun o =>
    match lookup new o.name with
    | some n => diffNode pol o n
    | none => []))
  ++ (new.nodes.filterMap (fun n =>
    if (lookup old n.name).isSome then none
    else some (.addedType n.name)))

/-- Modelled from the spec (section 4.3): the checker's output is
advisory only; threading the registries through the call returns them
untouched alongside the report. -/
def diffSt (pol : String → Bool) (p : Registry × Registry) :
    List SchemaChange × (Registry × Registry) :=
  (diff pol p.1 p.2, p)

/-! Concrete registry snapshots.  The first mirrors the canonical model
behind the shipped declaration files; the others are small snapshots
exercising the sealing, shape-error and diff paths. -/

/-- Registry-side model of the `Command` tagged union behind
src/bindings/src/types/Command.ts: variant tags and payload references in
the declared order, `EndEpoch` with unit payload. -/
def commandNode : TypeNode :=
  ⟨"Command", .unionK, [],
   [⟨"LocalOnly", some (.named "TransactionAtom")⟩,
    ⟨"Prepare", some (.named "TransactionAtom")⟩,
    ⟨"LocalPrepare", some (.named "TransactionAtom")⟩,
    ⟨"AllPrepare", some (.named "TransactionAtom")⟩,
    ⟨"SomePrepare", some (.named "TransactionAtom")⟩,
    ⟨"LocalAccept", some (.named "TransactionAtom")⟩,
    ⟨"AllAccept", some (.named "TransactionAtom")⟩,
    ⟨"SomeAccept", some (.named "TransactionAtom")⟩,
    ⟨"ForeignProposal", some (.named "ForeignProposalAtom")⟩,
    ⟨"MintConfidentialOutput", some (.named "MintConfidentialOutputAtom")⟩,
    ⟨"EvictNode", some (.named "EvictNodeAtom")⟩,
    ⟨"EndEpoch", none⟩],
   []⟩

/-- Registry-side model of `ValidatorNode<TAddr>` behind the shipped
declaration: the generic parameter `TAddr` is declared but used by no
field. -/
def validatorNodeReg : TypeNode :=
  ⟨"ValidatorNode", .structK,
   [⟨"address", .prim "string", false, false⟩,
    ⟨"public_key", .prim "string", false, false⟩,
    ⟨"shard_key", .named "SubstateAddress", false, false⟩,
    ⟨"epoch", .named "Epoch", false, false⟩,
    ⟨"committee_shard", .named "Shard", false, true⟩,
    ⟨"fee_claim_public_key", .prim "string", false, false⟩],
   [], ["TAddr"]⟩

/-- Registry-side model of `ProofsGenerateRequest` behind the shipped
declaration. -/
def proofsGenerateRequestReg : TypeNode :=
  ⟨"ProofsGenerateRequest", .structK,
   [⟨"amount", .named "Amount", false, false⟩,
    ⟨"reveal_amount", .named "Amount", false, false⟩,
    ⟨"account", .named "ComponentAddressOrName", false, true⟩,
    ⟨"resource_address", .named "ResourceAddress", false, false⟩,
    ⟨"destination_public_key", .prim "string", false, false⟩],
   [], []⟩

/-- Registry-side model of `TransactionSubmitRequest` behind the shipped
dist declaration. -/
def transactionSubmitRequestReg : TypeNode :=
  ⟨"TransactionSubmitRequest", .structK,
   [⟨"transaction", .named "UnsignedTransaction", false, true⟩,
    ⟨"signing_key_index", .prim "number", false, true⟩,
    ⟨"inputs", .seq (.named "SubstateRequirement"), false, false⟩,
    ⟨"override_inputs", .prim "boolean", false, false⟩,
    ⟨"is_dry_run", .prim "boolean", false, false⟩,
    ⟨"proof_ids", .seq (.prim "number"), false, false⟩,
    ⟨"fee_instructions", .seq (.named "Instruction"), false, false⟩,
    ⟨"instructions", .seq (.named "Instruction"), false, false⟩,
    ⟨"min_epoch", .named "Epoch", false, true⟩,
    ⟨"max_epoch", .named "Epoch", false, true⟩],
   [], []⟩

/-- Snapshot holding the registry-side models of the shipped
declarations. -/
def tariRegistry : Registry :=
  ⟨[commandNode, validatorNodeReg, proofsGenerateRequestReg, transactionSubmitRequestReg]⟩

/-- Leaf node with no fields, standing for an opaque wrapped type. -/
def leafNode (nm : String) : TypeNode :=
  ⟨nm, .primK, [], [], []⟩

def demoA : TypeNode :=
  ⟨"DemoA", .structK, [⟨"nested", .named "DemoB", false, false⟩], [], []⟩

def demoB : TypeNode :=
  ⟨"DemoB", .structK, [⟨"leaf", .named "DemoC", false, false⟩], [], []⟩

/-- A small sealed snapshot with a two-step reference chain
DemoA → DemoB → DemoC. -/
def demoRegistry : Registry :=
  ⟨[demoA, demoB, leafNode "DemoC"]⟩

/-- A snapshot with a duplicated type name. -/
def dupRegistry : Registry :=
  ⟨[leafNode "A", leafNode "A"]⟩

/-- A snapshot with a dangling reference: `Dangler.broken` targets a name
absent from the snapshot. -/
def danglingNode : TypeNode :=
  ⟨"Dangler", .structK, [⟨"broken", .named "Missing", false, false⟩], [], []⟩

def danglingRegistry : Registry :=
  ⟨[danglingNode]⟩

/-- A snapshot whose `Loop` node inlines itself with no indirection
point: unbounded recursion, an unsupported shape. -/
def loopNode : TypeNode :=
  ⟨"Loop", .structK, [⟨"self", .named "Loop", false, false⟩], [], []⟩

def unsupRegistry : Registry :=
  ⟨[loopNode, leafNode "Ok"]⟩

/-- Old snapshot of the breaking-change scenario: `Foo` with the single
required field `a : Int`. -/
def fooOld : Registry :=
  ⟨[⟨"Foo", .structK, [⟨"a", .prim "Int", false, false⟩], [], []⟩]⟩

/-- New snapshot adding the required field `b : Int` to `Foo`. -/
def fooNewRequired : Registry :=
  ⟨[⟨"Foo", .structK,
     [⟨"a", .prim "Int", false, false⟩, ⟨"b", .prim "Int", false, false⟩], [], []⟩]⟩

/-- New snapshot adding the optional field `b : Int` to `Foo`. -/
def fooNewOptional : Registry :=
  ⟨[⟨"Foo", .structK,
     [⟨"a", .prim "Int", false, false⟩, ⟨"b", .prim "Int", true, false⟩], [], []⟩]⟩

/-- A TypeNode name is reachable from a source node when it is directly
referenced by the source, or directly referenced by a node the source
already reaches. -/
inductive Reaches (r : Registry) (src : TypeNode) : String → Prop where
  | base {b : String} : b ∈ directRefNames src → Reaches r src b
  | step {b : String} (a : String) (na : TypeNode) :
      Reaches r src a → lookup r a = some na → b ∈ directRefNames na → Reaches r src b

/-! Helper lemmas on lookup, sealing and the dependency-collection
fixpoint. -/

theorem lookup_mem {r : Registry} {nm : String} {node : TypeNode}
    (h : lookup r nm = some node) : node ∈ r.nodes :=
  List.mem_of_find?_eq_some h

theorem lookup_name {r : Registry} {nm : String} {node : TypeNode}
    (h : lookup r nm = some node) : node.name = nm := by
  have hb := List.find?_some h
  exact eq_of_beq hb

theorem mem_names_of_lookup {r : Registry} {nm : String} {node : TypeNode}
    (h : lookup r nm = some node) : nm ∈ names r := by
  have h1 := lookup_mem h
  have h2 := lookup_name h
  subst h2
  exact List.mem_map_of_mem TypeNode.name h1

theorem lookup_isSome_of_mem {r : Registry} {nm : String} (h : nm ∈ names r) :
    (lookup r nm).isSome := by
  rcases List.mem_map.mp h with ⟨x, hx, hname⟩
  exact List.find?_isSome.mpr ⟨x, hx, beq_iff_eq.mpr hname⟩

theorem lookup_eq_none_iff {r : Registry} {nm : String} :
    lookup r nm = none ↔ nm ∉ names r := by
  constructor
  · intro h hmem
    rcases List.mem_map.mp hmem with ⟨x, hx, hname⟩
    exact List.find?_eq_none.mp h x hx (beq_iff_eq.mpr hname)
  · intro h
    apply List.find?_eq_none.mpr
    intro x hx hbeq
    exact h (eq_of_beq hbeq ▸ List.mem_map_of_mem TypeNode.name hx)

theorem sealed_spec {r : Registry} (hs : sealedB r = true) :
    ∀ x ∈ r.nodes, ∀ m ∈ directRefNames x, m ∈ names r := by
  intro x hx m hm
  have h1 := List.all_eq_true.mp hs x hx
  have h2 := List.all_eq_true.mp h1 m hm
  exact List.elem_iff.mp h2

theorem subset_stepRefs (r : Registry) (s : Finset String) : s ⊆ stepRefs r s :=
  Finset.subset_union_left

theorem stepRefs_bounded {r : Registry} (hs : sealedB r = true) {s : Finset String}
    (h : s ⊆ namesFinset r) : stepRefs r s ⊆ namesFinset r := by
  intro b hb
  rcases Finset.mem_union.mp hb with hb | hb
  · exact h hb
  · rcases Finset.mem_biUnion.mp hb with ⟨a, _, hbin⟩
    cases hl : lookup r a with
    | none =>
        rw [hl] at hbin
        exact absurd hbin (Finset.not_mem_empty b)
    | some node =>
        rw [hl] at hbin
        exact List.mem_toFinset.mpr
          (sealed_spec hs node (lookup_mem hl) b (List.mem_toFinset.mp hbin))

theorem iterate_succ_superset (r : Registry) (s : Finset String) (k : Nat) :
    (stepRefs r)^[k] s ⊆ (stepRefs r)^[k + 1] s := by
  rw [Function.iterate_succ_apply']
  exact subset_stepRefs r ((stepRefs r)^[k] s)

theorem subset_iterate (r : Registry) (s : Finset String) :
    ∀ k : Nat, s ⊆ (stepRefs r)^[k] s := by
  intro k
  induction k with
  | zero =>
      rw [Function.iterate_zero_apply]
  | succ k ih =>
      exact ih.trans (iterate_succ_superset r s k)

theorem iterate_bounded {r : Registry} (hs : sealedB r = true) {s : Finset String}
    (h : s ⊆ namesFinset r) : ∀ k : Nat, (stepRefs r)^[k] s ⊆ namesFinset r := by
  intro k
  induction k with
  | zero =>
      rw [Function.iterate_zero_apply]
      exact h
  | succ k ih =>
      rw [Function.iterate_succ_apply']
      exact stepRefs_bounded hs ih

theorem stepRefs_growth (r : Registry) (s : Finset String) :
    ∀ k : Nat,
      (∃ j, j ≤ k ∧ stepRefs r ((stepRefs r)^[j] s) = (stepRefs r)^[j] s)
        ∨ s.card + k ≤ ((stepRefs r)^[k] s).card := by
  intro k
  induction k with
  | zero =>
      right
      rw [Function.iterate_zero_apply]
      omega
  | succ k ih =>
      rcases ih with ⟨j, hj, hfix⟩ | hcard
      · exact Or.inl ⟨j, Nat.le_succ_of_le hj, hfix⟩
      · by_cases heq : stepRefs r ((stepRefs r)^[k] s) = (stepRefs r)^[k] s
        · exact Or.inl ⟨k, Nat.le_succ k, heq⟩
        · right
          have hsub := iterate_succ_superset r s k
          have hne : (stepRefs r)^[k] s ≠ (stepRefs r)^[k + 1] s := by
            intro h
            apply heq
            rw [Function.iterate_succ_apply'] at h
            exact h.symm
          have hlt := Finset.card_lt_card (Finset.ssubset_iff_subset_ne.mpr ⟨hsub, hne⟩)
          omega

theorem stepRefs_fix_forever (r : Registry) (s : Finset String) (j : Nat)
    (h : stepRefs r ((stepRefs r)^[j] s) = (stepRefs r)^[j] s) :
    ∀ d : Nat, (stepRefs r)^[j + d] s = (stepRefs r)^[j] s := by
  intro d
  induction d with
  | zero => rfl
  | succ d ih =>
      have harith : j + (d + 1) = (j + d) + 1 := rfl
      rw [harith, Function.iterate_succ_apply', ih, h]

theorem importSet_fix {r : Registry} {n : TypeNode} (hs : sealedB r = true)
    (hmem : n ∈ r.nodes) : stepRefs r (importSet r n) = importSet r n := by
  have hs0 : (directRefNames n).toFinset ⊆ namesFinset r := by
    intro m hm
    exact List.mem_toFinset.mpr (sealed_spec hs n hmem m (List.mem_toFinset.mp hm))
  rcases stepRefs_growth r (directRefNames n).toFinset (importBound r)
    with ⟨j, hj, hfix⟩ | hcard
  · have hd : j + (importBound r - j) = importBound r := by omega
    have hstable :=
      stepRefs_fix_forever r (directRefNames n).toFinset j hfix (importBound r - j)
    rw [hd] at hstable
    unfold importSet
    rw [hstable]
    exact hfix
  · exfalso
    have hb := Finset.card_le_card (iterate_bounded hs hs0 (importBound r))
    have hbd : importBound r = (namesFinset r).card + 1 := rfl
    omega

theorem reaches_mem_importSet {r : Registry} {n : TypeNode} {b : String}
    (hs : sealedB r = true) (hmem : n ∈ r.nodes) (h : Reaches r n b) :
    b ∈ importSet r n := by
  induction h with
  | base hb =>
      exact subset_iterate r (directRefNames n).toFinset (importBound r)
        (List.mem_toFinset.mpr hb)
  | @step c a na hra hlook hb ih =>
      have hfix := importSet_fix hs hmem
      rw [← hfix]
      apply Finset.mem_union_right
      apply Finset.mem_biUnion.mpr
      refine ⟨a, ih, ?_⟩
      show c ∈ (match lookup r a with
        | some node => (directRefNames node).toFinset
        | none => (∅ : Finset String))
      rw [hlook]
      exact List.mem_toFinset.mpr hb

theorem importSet_resolves {r : Registry} {n : TypeNode} (hs : sealedB r = true)
    (hmem : n ∈ r.nodes) {b : String} (hb : b ∈ importSet r n) :
    (lookup r b).isSome := by
  have hs0 : (directRefNames n).toFinset ⊆ namesFinset r := by
    intro m hm
    exact List.mem_toFinset.mpr (sealed_spec hs n hmem m (List.mem_toFinset.mp hm))
  have hsub := iterate_bounded hs hs0 (importBound r)
  exact lookup_isSome_of_mem (List.mem_toFinset.mp (hsub hb))

/-! The claims. -/

/-- C1: for any fixed Schema Registry snapshot, two independent runs of
`export` over all nodes of the snapshot produce byte-identical output
sets.  The export pipeline is a pure function of the snapshot (no clock,
no randomness, no unordered iteration: `all_nodes` iterates in
declaration order and the import list is emitted in sorted order), so two
runs over equal snapshots yield identical rendered bytes. -/
theorem export_deterministic :
    ∀ r₁ r₂ : Registry, r₁ = r₂ → renderAll r₁ = renderAll r₂ := by
  intro r₁ r₂ h
  rw [h]

theorem export_deterministic_witness :
    demoRegistry = demoRegistry ∧ renderAll demoRegistry = renderAll demoRegistry :=
  ⟨rfl, export_deterministic demoRegistry demoRegistry rfl⟩

/-- C2: exporting a tagged union preserves every variant tag verbatim and
in declared order, and a unit-payload variant is represented without a
payload field; in particular the `Command` node exports to exactly the
twelve tags of the shipped Command.ts in declared order, with `EndEpoch`
carrying no payload in both the ExportUnit and the shipped file. -/
theorem union_export_preserves_tags :
    (∀ (r : Registry) (nm : String) (fs : List FieldSpec) (vs : List VariantSpec)
        (gs : List String),
      (exportNode r ⟨nm, .unionK, fs, vs, gs⟩).caseTags = vs.map VariantSpec.tag ∧
      (exportNode r ⟨nm, .unionK, fs, vs, gs⟩).casePayloads = vs.map VariantSpec.payload) ∧
    (exportNode tariRegistry commandNode).caseTags =
      ["LocalOnly", "Prepare", "LocalPrepare", "AllPrepare", "SomePrepare",
       "LocalAccept", "AllAccept", "SomeAccept", "ForeignProposal",
       "MintConfidentialOutput", "EvictNode", "EndEpoch"] ∧
    (exportNode tariRegistry commandNode).caseTags = declCaseTags Command_ts.decl ∧
    (exportNode tariRegistry commandNode).casePayloads.getLast? = some none ∧
    (declCasePayloads Command_ts.decl).getLast? = some none := by
  refine ⟨fun r nm fs vs gs => ⟨?_, ?_⟩, by decide, by decide, by decide, by decide⟩
  · show (vs.map fun v => (⟨v.tag, v.payload⟩ : ExportCase)).map ExportCase.tag
        = vs.map VariantSpec.tag
    rw [List.map_map]
    rfl
  · show (vs.map fun v => (⟨v.tag, v.payload⟩ : ExportCase)).map ExportCase.payload
        = vs.map VariantSpec.payload
    rw [List.map_map]
    rfl

/-- C3 counterexample: the claim that every output file carries the
auto-generation provenance header fails on the dist/ declaration files:
TransactionSubmitRequest.d.ts is a repository output file with no
provenance header comment. -/
theorem dist_lacks_provenance_header :
    TransactionSubmitRequest_dts ∈ repoFiles ∧
      hasProvenanceHeader TransactionSubmitRequest_dts = false :=
  ⟨by decide, by decide⟩

/-- C3 (amended): every generated declaration file imports every TypeNode
its declaration depends on and contains the projected declaration; the
src/ generated files carry the ts-rs provenance header with its
do-not-edit marker, while the compiled dist/ declaration files carry no
header. -/
theorem generated_file_layout :
    repoFiles.all importsCoverDeps = true ∧
    repoFiles.all (fun f => !(declName f.decl == "")) = true ∧
    srcFiles.all hasProvenanceHeader = true ∧
    distFiles.all (fun f => !(hasProvenanceHeader f)) = true :=
  ⟨by decide, by decide, by decide, by decide⟩

/-- C4: a generic parameter unused in any field is still emitted, and
generic parameters are emitted in declared order in every ExportUnit:
`export` copies the node's parameter list verbatim, and the
`ValidatorNode<TAddr>` node — whose `TAddr` occurs in no field — exports
with `TAddr` in its signature, matching the shipped declaration. -/
theorem generic_params_preserved :
    (∀ (r : Registry) (n : TypeNode), (exportNode r n).generics = n.generics) ∧
    validatorNodeReg.generics = ["TAddr"] ∧
    "TAddr" ∉ directRefNames validatorNodeReg ∧
    (exportNode tariRegistry validatorNodeReg).generics = ["TAddr"] ∧
    declGenerics ValidatorNode_ts.decl = ["TAddr"] :=
  ⟨fun _ _ => rfl, by decide, by decide, by decide, by decide⟩

/-- C5: for every struct TypeNode the emitted field order equals the
declaration order in the registry; in particular `ProofsGenerateRequest`
exports its five fields in registry order, matching the shipped
declaration verbatim. -/
theorem struct_field_order_preserved :
    (∀ (r : Registry) (nm : String) (fs : List FieldSpec) (vs : List VariantSpec)
        (gs : List String),
      (exportNode r ⟨nm, .structK, fs, vs, gs⟩).fieldNames = fs.map FieldSpec.name) ∧
    (exportNode tariRegistry proofsGenerateRequestReg).fieldNames =
      ["amount", "reveal_amount", "account", "resource_address",
       "destination_public_key"] ∧
    (exportNode tariRegistry proofsGenerateRequestReg).fieldNames =
      declFieldNames ProofsGenerateRequest_ts.decl := by
  refine ⟨fun r nm fs vs gs => ?_, by decide, by decide⟩
  show (fs.map fun f => (⟨f.name, f.ty, f.optional || f.nullable⟩ : ExportField)).map
      ExportField.name = fs.map FieldSpec.name
  rw [List.map_map]
  rfl

/-- C6: on a sealed snapshot, every TypeNode name reachable from a node N
appears in N's ExportUnit import set, and every reachable name resolves
to a TypeNode inside the snapshot. -/
theorem reference_closure :
    ∀ (r : Registry) (n : TypeNode) (b : String),
      sealedB r = true → n ∈ r.nodes → Reaches r n b →
      b ∈ (exportNode r n).imports ∧ (lookup r b).isSome := by
  intro r n b hs hmem hr
  have h1 := reaches_mem_importSet hs hmem hr
  exact ⟨h1, importSet_resolves hs hmem h1⟩

theorem reference_closure_witness :
    sealedB demoRegistry = true ∧ demoA ∈ demoRegistry.nodes ∧
      Reaches demoRegistry demoA "DemoC" ∧
      "DemoC" ∈ (exportNode demoRegistry demoA).imports ∧
      (lookup demoRegistry "DemoC").isSome := by
  have hs : sealedB demoRegistry = true := by decide
  have hmem : demoA ∈ demoRegistry.nodes := by decide
  have hr : Reaches demoRegistry demoA "DemoC" :=
    Reaches.step "DemoB" demoB (Reaches.base (by decide)) (by decide) (by decide)
  have h := reference_closure demoRegistry demoA "DemoC" hs hmem hr
  exact ⟨hs, hmem, hr, h.1, h.2⟩

/-- C7: `resolve` on a reference whose target name is given fails with
`UnresolvedReferenceError` exactly when that name is absent from the
snapshot, and sealing a registry containing a node with a dangling
reference fails. -/
theorem resolve_fails_iff_absent :
    (∀ (r : Registry) (ref : TypeRef) (nm : String), targetName ref = some nm →
      (resolve r ref = .error (.unresolvedReference nm) ↔ nm ∉ names r)) ∧
    (∀ (r : Registry) (n : TypeNode), n ∈ r.nodes →
      (∃ m ∈ directRefNames n, m ∉ names r) → validate r ≠ .ok ()) := by
  constructor
  · intro r ref nm h
    cases hl : lookup r nm with
    | none =>
        have hres : resolve r ref = .error (.unresolvedReference nm) := by
          simp [resolve, h, hl]
        exact iff_of_true hres (lookup_eq_none_iff.mp hl)
    | some node =>
        have hres : resolve r ref = .ok node := by
          simp [resolve, h, hl]
        apply iff_of_false
        · rw [hres]
          intro hcontra
          exact Except.noConfusion hcontra
        · intro hcontra
          exact hcontra (mem_names_of_lookup hl)
  · intro r n hn hex hok
    rcases hex with ⟨m, hm, habs⟩
    unfold validate at hok
    split at hok
    · exact Except.noConfusion hok
    · split at hok
      · exact Except.noConfusion hok
      · rename_i hdup hu
        have hall := List.findSome?_eq_none_iff.mp hu n hn
        have hnone := List.find?_eq_none.mp hall m hm
        rw [decide_eq_true_eq] at hnone
        exact hnone habs

theorem resolve_fails_witness :
    targetName (.named "Missing") = some "Missing" ∧
      (resolve danglingRegistry (.named "Missing")
          = .error (.unresolvedReference "Missing")
        ↔ "Missing" ∉ names danglingRegistry) ∧
      danglingNode ∈ danglingRegistry.nodes ∧
      validate danglingRegistry ≠ .ok () := by
  refine ⟨rfl, resolve_fails_iff_absent.1 danglingRegistry (.named "Missing") "Missing" rfl,
    by decide, resolve_fails_iff_absent.2 danglingRegistry danglingNode (by decide) ?_⟩
  exact ⟨"Missing", by decide, by decide⟩

/-- C8: a single export run is atomic: a fatal structural error
(duplicate name or unresolved reference) aborts before any output; on a
validated snapshot an unsupported shape on any node fails the whole batch
with the collected list of every failing node and no output; otherwise
the run produces the complete output set, one declaration per node. -/
theorem export_batch_atomic :
    (∀ (r : Registry) (e : SchemaError), validate r = .error e → runExport r = .fatal e) ∧
    (∀ r : Registry, validate r = .ok () → failingNodes r ≠ [] →
      runExport r = .nodeFailures (failingNodes r)) ∧
    (∀ r : Registry, validate r = .ok () → failingNodes r = [] →
      runExport r = .produced (renderAll r)) ∧
    (∀ r : Registry,
      runExport r = .produced (renderAll r) ∨ writtenOutputs (runExport r) = []) ∧
    (∀ r : Registry, (renderAll r).map Prod.fst = r.nodes.map TypeNode.name) := by
  refine ⟨?_, ?_, ?_, ?_, ?_⟩
  · intro r e h
    unfold runExport
    rw [h]
  · intro r h hne
    unfold runExport
    rw [h]
    exact if_neg hne
  · intro r h heq
    unfold runExport
    rw [h]
    exact if_pos heq
  · intro r
    unfold runExport
    cases hv : validate r with
    | error e => right; rfl
    | ok u =>
        by_cases hne : failingNodes r = []
        · left
          exact if_pos hne
        · right
          rw [if_neg hne]
          rfl
  · intro r
    unfold renderAll
    rw [List.map_map]
    rfl

theorem export_batch_atomic_witness :
    validate dupRegistry = .error (.duplicateName "A") ∧
      runExport dupRegistry = .fatal (.duplicateName "A") ∧
      validate unsupRegistry = .ok () ∧ failingNodes unsupRegistry = ["Loop"] ∧
      runExport unsupRegistry = .nodeFailures (failingNodes unsupRegistry) ∧
      validate demoRegistry = .ok () ∧ failingNodes demoRegistry = [] ∧
      runExport demoRegistry = .produced (renderAll demoRegistry) := by
  refine ⟨rfl, export_batch_atomic.1 dupRegistry (.duplicateName "A") rfl, rfl, rfl,
    export_batch_atomic.2.1 unsupRegistry rfl ?_, rfl, rfl,
    export_batch_atomic.2.2.1 demoRegistry rfl rfl⟩
  intro h
  exact List.noConfusion h

/-- C9: `diff` classifies the addition of a required field `b` to
`Foo{a: Int}` as breaking and the addition of an optional `b` as
compatible, for every open-union policy; and the checker is advisory:
threading the registries through `diffSt` returns both untouched. -/
theorem diff_field_addition :
    (∀ pol : String → Bool,
      diff pol fooOld fooNewRequired = [.fieldAdded "Foo" "b" false]) ∧
    (∀ pol : String → Bool,
      diff pol fooOld fooNewOptional = [.fieldAdded "Foo" "b" true]) ∧
    (∀ (pol : String → Bool) (o n : Registry), (diffSt pol (o, n)).2 = (o, n)) :=
  ⟨fun _ => rfl, fun _ => rfl, fun _ _ _ => rfl⟩

/-- C10: in every generated declaration of the repository every interface
field is declared required — no optional marker appears on any field —
and possible absence of a value is encoded as a union with null on the
field's type. -/
theorem fields_required_null_union :
    allFieldsRequired repoFiles = true ∧ usesNullUnion repoFiles = true :=
  ⟨by decide, by decide⟩

end TariBindings
